import Mathlib

/-!
Verification of the injector-calc application (src/unnamed/part_002, the
current App.tsx) against its natural-language specification.

JavaScript numbers are modelled exactly: a `JSVal` is NaN, +Infinity,
-Infinity, or an exact rational.  IEEE-754 rounding of ordinary arithmetic
is idealised away (all concrete inputs used in the claims are small decimal
fractions), but every explicit rounding step performed by the code — the
regression library's precision-2 rounding of slope/intercept/predictions and
the display-level `toFixed` — is modelled faithfully.  The model has no
negative zero; none of the code paths under verification distinguish it.
-/

namespace InjectorCalc

/-- A JavaScript number: NaN, an infinity, or an exact rational value. -/
inductive JSVal where
  | nan : JSVal
  | posInf : JSVal
  | negInf : JSVal
  | num : ℚ → JSVal
deriving DecidableEq

/-- JS unary minus. -/
def jneg : JSVal → JSVal
  | .nan => .nan
  | .posInf => .negInf
  | .negInf => .posInf
  | .num q => .num (-q)

/-- JS addition (`+` on numbers): NaN propagates, opposite infinities give NaN. -/
def jadd : JSVal → JSVal → JSVal
  | .nan, _ => .nan
  | _, .nan => .nan
  | .posInf, .negInf => .nan
  | .negInf, .posInf => .nan
  | .posInf, _ => .posInf
  | _, .posInf => .posInf
  | .negInf, _ => .negInf
  | _, .negInf => .negInf
  | .num a, .num b => .num (a + b)

/-- JS subtraction: `a - b` behaves as `a + (-b)` in all special cases. -/
def jsub (a b : JSVal) : JSVal := jadd a (jneg b)

/-- JS multiplication: NaN propagates, `0 * Infinity` is NaN, signs multiply. -/
def jmul : JSVal → JSVal → JSVal
  | .nan, _ => .nan
  | _, .nan => .nan
  | .posInf, .posInf => .posInf
  | .posInf, .negInf => .negInf
  | .negInf, .posInf => .negInf
  | .negInf, .negInf => .posInf
  | .posInf, .num b => if b = 0 then .nan else if 0 < b then .posInf else .negInf
  | .num a, .posInf => if a = 0 then .nan else if 0 < a then .posInf else .negInf
  | .negInf, .num b => if b = 0 then .nan else if 0 < b then .negInf else .posInf
  | .num a, .negInf => if a = 0 then .nan else if 0 < a then .negInf else .posInf
  | .num a, .num b => .num (a * b)

/-- JS division: NaN propagates, `Infinity / Infinity` is NaN,
`x / 0` is a signed infinity for nonzero `x` and NaN for `0 / 0`
(the model has no negative zero, so `x / 0` takes the sign of `x`). -/
def jdiv : JSVal → JSVal → JSVal
  | .nan, _ => .nan
  | _, .nan => .nan
  | .posInf, .posInf => .nan
  | .posInf, .negInf => .nan
  | .negInf, .posInf => .nan
  | .negInf, .negInf => .nan
  | .posInf, .num b => if 0 ≤ b then .posInf else .negInf
  | .negInf, .num b => if 0 ≤ b then .negInf else .posInf
  | .num _, .posInf => .num 0
  | .num _, .negInf => .num 0
  | .num a, .num b =>
      if b = 0 then (if a = 0 then .nan else if 0 < a then .posInf else .negInf)
      else .num (a / b)

/-- JS truthiness of a number: `NaN` and `0` are falsy, everything else truthy. -/
def truthy : JSVal → Bool
  | .nan => false
  | .num q => decide (q ≠ 0)
  | _ => true

/-- JS global `isNaN` applied to a number. -/
def isNaNj : JSVal → Bool
  | .nan => true
  | _ => false

/-- Floor of a rational as an integer (`q.num` and `q.den` are coprime,
`q.den` positive, so floored integer division is the floor). -/
def ratFloor (q : ℚ) : ℤ := Int.fdiv q.num (q.den : ℤ)

/-- The regression library's `round(number, 2)`:
`Math.round(number * 100) / 100`.  `Math.round` rounds half toward
positive infinity; NaN and infinities pass through. -/
def round2 : JSVal → JSVal
  | .num q => .num (((ratFloor (q * 100 + 1/2) : ℤ) : ℚ) / 100)
  | v => v

/-- Pads a digit string on the left with zeros up to length `d`. -/
def padZeros (d : Nat) (s : String) : String :=
  String.mk (List.replicate (d - s.length) '0') ++ s

/-- JS `Number.prototype.toFixed(d)`: renders NaN as "NaN", infinities as
"Infinity"/"-Infinity", and a finite value as its decimal expansion with
exactly `d` fraction digits, rounding the magnitude half away from zero. -/
def toFixedStr (d : Nat) : JSVal → String
  | .nan => "NaN"
  | .posInf => "Infinity"
  | .negInf => "-Infinity"
  | .num q =>
      let p : ℚ := if q < 0 then -q else q
      let n : Nat := (ratFloor (p * 10 ^ d + 1/2)).toNat
      let digits : String :=
        if d = 0 then toString n
        else toString (n / 10 ^ d) ++ "." ++ padZeros d (toString (n % 10 ^ d))
      (if q < 0 then "-" else "") ++ digits

/-- JS summation of a list of numbers starting from `0`
(the library's `sum[i] += ...` accumulation). -/
def sumJ (l : List JSVal) : JSVal := l.foldl jadd (.num 0)

/-- The `equation` pair produced by the regression library's linear fit. -/
structure FitResult where
  gradient : JSVal
  intercept : JSVal
deriving DecidableEq

/-- The npm `regression` package's `linear(data)` with its default options
(precision 2).  The library skips points whose y is `null`; the points fed
to it here are always numbers, so `len` is the length of the data.
`gradient` is `0` (not NaN) whenever the denominator `run` is exactly `0`,
which covers the zero- and one-point cases. -/
def linear (data : List (JSVal × JSVal)) : FitResult :=
  let len : JSVal := .num data.length
  let sum0 := sumJ (data.map (fun p => p.1))
  let sum1 := sumJ (data.map (fun p => p.2))
  let sum2 := sumJ (data.map (fun p => jmul p.1 p.1))
  let sum3 := sumJ (data.map (fun p => jmul p.1 p.2))
  let run := jsub (jmul len sum2) (jmul sum0 sum0)
  let rise := jsub (jmul len sum3) (jmul sum0 sum1)
  let gradient := if run = .num 0 then .num 0 else round2 (jdiv rise run)
  let intercept := round2 (jsub (jdiv sum1 len) (jdiv (jmul gradient sum0) len))
  ⟨gradient, intercept⟩

/-- The library's `predict(x)[1]`: the fitted line evaluated at `x`,
rounded to the default precision of 2. -/
def predict (f : FitResult) (x : JSVal) : JSVal :=
  round2 (jadd (jmul f.gradient x) f.intercept)

/-- `InjectorTestRow`: the three optional numeric fields, the
`includeInRegression` flag, and the stable id.  The source's id is the
string `rowInput-<n>` for a global counter `n`; the counter value stands
for the id here. -/
structure InjectorTestRow where
  injections : Option JSVal
  pulseWidth : Option JSVal
  totalMass : Option JSVal
  includeInRegression : Bool
  id : Nat
deriving DecidableEq

/-- `makeRow()`: a fresh blank row with `includeInRegression: true`
and the next id from the counter. -/
def makeRow (n : Nat) : InjectorTestRow :=
  ⟨none, none, none, true, n⟩

/-- Reading a possibly-absent field in a numeric context: `undefined`
behaves as NaN under JS arithmetic, truthiness, and `isNaN`. -/
def jv (o : Option JSVal) : JSVal := o.getD .nan

/-- `rowIsValid`: `row.injections && row.pulseWidth && row.totalMass &&
!isNaN(row.injections) && !isNaN(row.pulseWidth) && !isNaN(row.totalMass)`,
as a boolean (the JS chain is truthy iff every operand is truthy). -/
def rowIsValid (row : InjectorTestRow) : Bool :=
  truthy (jv row.injections) && truthy (jv row.pulseWidth) && truthy (jv row.totalMass) &&
  !isNaNj (jv row.injections) && !isNaNj (jv row.pulseWidth) && !isNaNj (jv row.totalMass)

/-- `formatRowValue`: empty string for NaN (the `val === undefined` test in
the source can never fire on a number), otherwise `val.toFixed(1)`. -/
def formatRowValue (val : JSVal) : String :=
  if isNaNj val then "" else toFixedStr 1 val

/-- `InjectorTestRowCleaned`: a valid row after the non-null assertions. -/
structure CleanedRow where
  injections : JSVal
  pulseWidth : JSVal
  totalMass : JSVal
  includeInRegression : Bool
deriving DecidableEq

/-- The map applied to each valid row
(`r => ({injections: r.injections!, ...})`). -/
def cleanRow (r : InjectorTestRow) : CleanedRow :=
  ⟨jv r.injections, jv r.pulseWidth, jv r.totalMass, r.includeInRegression⟩

/-- `validRows`: `rows.filter(rowIsValid).map(...)`. -/
def validRows (rows : List InjectorTestRow) : List CleanedRow :=
  (rows.filter rowIsValid).map cleanRow

/-- The argument of `regression.linear`:
`validRows.filter(r => r.includeInRegression).map(d => [d.pulseWidth, 1e3 * d.totalMass / d.injections])`. -/
def regressionInput (rows : List InjectorTestRow) : List (JSVal × JSVal) :=
  ((validRows rows).filter (fun r => r.includeInRegression)).map
    (fun d => (d.pulseWidth, jmul (.num 1000) (jdiv d.totalMass d.injections)))

/-- `regressionResult = regression.linear(...)`. -/
def regressionResult (rows : List InjectorTestRow) : FitResult :=
  linear (regressionInput rows)

/-- `flowRate = regressionResult.equation[0]`. -/
def flowRate (rows : List InjectorTestRow) : JSVal :=
  (regressionResult rows).gradient

/-- `deadtime = -regressionResult.equation[1] / flowRate`. -/
def deadtime (rows : List InjectorTestRow) : JSVal :=
  jdiv (jneg (regressionResult rows).intercept) (flowRate rows)

/-- One element of `dataForPlot`. -/
structure PlotPoint where
  pulseWidth : JSVal
  massPerPulse : JSVal
  err : JSVal
  modelMass : JSVal
  modelPulse : JSVal
  smallPulseAdder : JSVal
deriving DecidableEq

/-- The body of the `dataForPlot` map for one valid row. -/
def mkPlotPoint (rows : List InjectorTestRow) (row : CleanedRow) : PlotPoint :=
  let massPerPulse := jdiv row.totalMass row.injections
  let actualMassMg := jmul (.num 1000) (jdiv row.totalMass row.injections)
  let modelMass := predict (regressionResult rows) row.pulseWidth
  let pctError := jmul (.num 100) (jdiv (jsub modelMass actualMassMg) actualMassMg)
  let modelPulse := jmul (.num 1000) (jdiv massPerPulse (flowRate rows))
  let smallPulseAdder := jsub (jsub row.pulseWidth (deadtime rows)) modelPulse
  ⟨row.pulseWidth, jmul (.num 1000) massPerPulse, pctError, modelMass, modelPulse, smallPulseAdder⟩

/-- `dataForPlot = validRows.map(row => ...)`: computed for every valid row,
included in the fit or not. -/
def dataForPlot (rows : List InjectorTestRow) : List PlotPoint :=
  (validRows rows).map (mkPlotPoint rows)

/-- The `actualMassMg` computed in `tableRows` for an arbitrary (possibly
incomplete) row: `1e3 * row.totalMass! / row.injections!`. -/
def tableActualMassMg (row : InjectorTestRow) : JSVal :=
  jmul (.num 1000) (jdiv (jv row.totalMass) (jv row.injections))

/-- The `modelMass` computed in `tableRows`:
`regressionResult.predict(row.pulseWidth!)[1]`. -/
def tableModelMass (rows : List InjectorTestRow) (row : InjectorTestRow) : JSVal :=
  predict (regressionResult rows) (jv row.pulseWidth)

/-- The `pctError` computed in `tableRows`. -/
def tablePctError (rows : List InjectorTestRow) (row : InjectorTestRow) : JSVal :=
  jmul (.num 100)
    (jdiv (jsub (tableModelMass rows row) (tableActualMassMg row)) (tableActualMassMg row))

/-- The flow-rate summary line's first figure: `flowRate.toFixed(2)`. -/
def flowRateStr (rows : List InjectorTestRow) : String :=
  toFixedStr 2 (flowRate rows)

/-- The flow-rate summary line's cc/min figure:
`(83.333 * flowRate).toFixed(1)`. -/
def flowRateCcStr (rows : List InjectorTestRow) : String :=
  toFixedStr 1 (jmul (.num (83333/1000)) (flowRate rows))

/-- The deadtime summary line: `deadtime.toFixed(2)`. -/
def deadtimeStr (rows : List InjectorTestRow) : String :=
  toFixedStr 2 (deadtime rows)

/-- The small pulse correction table's first line:
`dataForPlot.map(c => c.smallPulseAdder.toFixed(3))`. -/
def smallPulseAdderStrs (rows : List InjectorTestRow) : List String :=
  (dataForPlot rows).map (fun c => toFixedStr 3 c.smallPulseAdder)

/-- The small pulse correction table's second line:
`dataForPlot.map(c => c.modelPulse.toFixed(3))`. -/
def modelPulseStrs (rows : List InjectorTestRow) : List String :=
  (dataForPlot rows).map (fun c => toFixedStr 3 c.modelPulse)

/-- The component state: the `rows` array plus the module-level `nextId`
counter consumed by `makeRow`. -/
structure AppState where
  rows : List InjectorTestRow
  nextId : Nat
deriving DecidableEq

/-- `useState([makeRow()])` with the counter starting at 0. -/
def initialState : AppState := ⟨[makeRow 0], 1⟩

/-- Which of the three numeric fields an input edits. -/
inductive RowField where
  | injections : RowField
  | pulseWidth : RowField
  | totalMass : RowField
deriving DecidableEq

/-- The `mutateRow` callback wired to each input: assigns the parsed value
to one field. -/
def setField (r : InjectorTestRow) (f : RowField) (v : JSVal) : InjectorTestRow :=
  match f with
  | .injections => { r with injections := some v }
  | .pulseWidth => { r with pulseWidth := some v }
  | .totalMass => { r with totalMass := some v }

/-- `handleInputChange(index, mutateRow, value)`: copies the array and
mutates the indexed row.  (The UI only produces in-range indices; out of
range is a no-op here where the source would fault.) -/
def handleInputChange (s : AppState) (index : Nat) (f : RowField) (v : JSVal) : AppState :=
  match s.rows.get? index with
  | some r => { s with rows := s.rows.set index (setField r f v) }
  | none => s

/-- `handleInclude(index, value)`: sets the inclusion flag of one row. -/
def handleInclude (s : AppState) (index : Nat) (b : Bool) : AppState :=
  match s.rows.get? index with
  | some r => { s with rows := s.rows.set index { r with includeInRegression := b } }
  | none => s

/-- `removeRow(index)`: `rows.filter((_, i) => i !== index)` —
no guard of any kind in the function itself. -/
def removeRow (rows : List InjectorTestRow) (index : Nat) : List InjectorTestRow :=
  (rows.enum.filter (fun p => p.1 != index)).map Prod.snd

/-- `addRow()`: `setRows([...rows, makeRow()])`. -/
def addRow (s : AppState) : AppState :=
  ⟨s.rows ++ [makeRow s.nextId], s.nextId + 1⟩

/-- The `onBlur` handler of the total-mass input of row `index`:
`if (isLastRow && rowIsValid(row)) { addRow(); }` where
`isLastRow = index === rows.length - 1`. -/
def blurTotalMass (s : AppState) (index : Nat) : AppState :=
  match s.rows.get? index with
  | some r => if index + 1 = s.rows.length && rowIsValid r then addRow s else s
  | none => s

/-- The user interactions the rendered page offers.  `clickRemove` exists
for a row exactly when it is not the last one: the last row's action slot
holds the Add Row button instead of the remove button. -/
inductive Event where
  | update : Nat → RowField → JSVal → Event
  | blurTotal : Nat → Event
  | setInclude : Nat → Bool → Event
  | clickRemove : Nat → Event
  | clickAdd : Event
deriving DecidableEq

/-- One user interaction applied to the state.  `clickRemove` on the last
row is impossible in the page (that slot renders the Add Row button), so it
maps to a no-op; every other case is the corresponding source handler. -/
def step (s : AppState) (e : Event) : AppState :=
  match e with
  | .update i f v => handleInputChange s i f v
  | .blurTotal i => blurTotalMass s i
  | .setInclude i b => handleInclude s i b
  | .clickRemove i => if i + 1 = s.rows.length then s else { s with rows := removeRow s.rows i }
  | .clickAdd => addRow s

/-- A sequence of user interactions. -/
def steps (s : AppState) (es : List Event) : AppState := es.foldl step s

/-- Spec side (for the refinement in C9): the regression input described by
the spec, "the ordered sequence of (pulseWidthMs, massPerPulseMg) pairs
from valid rows where includeInFit is true". -/
def specRegressionPairs (rows : List InjectorTestRow) : List (JSVal × JSVal) :=
  (rows.filter (fun r => rowIsValid r && r.includeInRegression)).map
    (fun r => (jv r.pulseWidth, jmul (.num 1000) (jdiv (jv r.totalMass) (jv r.injections))))

/-- Spec side (for C2): a field that is present, non-zero and not NaN. -/
def fieldPresent (o : Option JSVal) : Prop :=
  ∃ v, o = some v ∧ v ≠ JSVal.nan ∧ v ≠ JSVal.num 0

/-- First row of the end-to-end scenario:
injections 10, pulse width 2 ms, total mass 0.02 g. -/
def rowE2Ea : InjectorTestRow :=
  ⟨some (.num 10), some (.num 2), some (.num (1/50)), true, 0⟩

/-- Second row of the end-to-end scenario:
injections 10, pulse width 4 ms, total mass 0.06 g. -/
def rowE2Eb : InjectorTestRow :=
  ⟨some (.num 10), some (.num 4), some (.num (3/50)), true, 1⟩

/-- The end-to-end scenario store: exactly the two included valid rows. -/
def rowsE2E : List InjectorTestRow := [rowE2Ea, rowE2Eb]

/-- A store with a single included valid row. -/
def rowsOne : List InjectorTestRow := [rowE2Ea]

/-- A store with one blank row (the initial state's rows). -/
def rowsBlank : List InjectorTestRow := [makeRow 0]

/-- A row whose `injections` field is positive infinity and whose other
fields are ordinary positive numbers. -/
def rowInf : InjectorTestRow :=
  ⟨some .posInf, some (.num 2), some (.num (1/50)), true, 0⟩

/-- A valid row excluded from the regression: 10 injections, 3 ms, 0.04 g,
`includeInRegression: false`. -/
def rowExcl : InjectorTestRow :=
  ⟨some (.num 10), some (.num 3), some (.num (1/25)), false, 2⟩

/-- The end-to-end store extended with an excluded valid row. -/
def rowsMixed : List InjectorTestRow := [rowE2Ea, rowE2Eb, rowExcl]

/-- The three update interactions that fill in every field of row 0 with
the first end-to-end row's data. -/
def e2eUpdates0 : List Event :=
  [.update 0 .injections (.num 10), .update 0 .pulseWidth (.num 2),
   .update 0 .totalMass (.num (1/50))]

/-- The interactions that fill in every field of row 1 with the second
end-to-end row's data and then blur its total-mass input. -/
def e2eUpdates1 : List Event :=
  [.update 1 .injections (.num 10), .update 1 .pulseWidth (.num 4),
   .update 1 .totalMass (.num (3/50)), .blurTotal 1]

attribute [local semireducible] Rat.mul Rat.add Rat.sub Rat.inv Rat.ofScientific

/-- NaN absorbs JS addition on the right. -/
@[simp] theorem jadd_nan_right (v : JSVal) : jadd v .nan = .nan := by
  cases v <;> rfl

/-- NaN absorbs JS addition on the left. -/
@[simp] theorem jadd_nan_left (v : JSVal) : jadd .nan v = .nan := by
  cases v <;> rfl

/-- NaN absorbs JS subtraction on the left. -/
@[simp] theorem jsub_nan_left (v : JSVal) : jsub .nan v = .nan := by
  cases v <;> rfl

/-- NaN absorbs JS subtraction on the right. -/
@[simp] theorem jsub_nan_right (v : JSVal) : jsub v .nan = .nan := by
  cases v <;> rfl

/-- NaN absorbs JS multiplication on the left. -/
@[simp] theorem jmul_nan_left (v : JSVal) : jmul .nan v = .nan := by
  cases v <;> rfl

/-- NaN absorbs JS multiplication on the right. -/
@[simp] theorem jmul_nan_right (v : JSVal) : jmul v .nan = .nan := by
  cases v <;> rfl

/-- NaN absorbs JS division on the left. -/
@[simp] theorem jdiv_nan_left (v : JSVal) : jdiv .nan v = .nan := by
  cases v <;> rfl

/-- NaN absorbs JS division on the right. -/
@[simp] theorem jdiv_nan_right (v : JSVal) : jdiv v .nan = .nan := by
  cases v <;> rfl

/-- The library's rounding passes NaN through. -/
@[simp] theorem round2_nan : round2 .nan = .nan := rfl

/-- Indexed-filter removal in terms of take and drop: dropping the entries
whose position equals `i` keeps everything before position `i` and
everything after it. -/
theorem enumFrom_filter_ne_map (l : List InjectorTestRow) (n i : Nat) :
    ((List.enumFrom n l).filter (fun p => p.1 != i)).map Prod.snd =
      if i < n then l else l.take (i - n) ++ l.drop (i - n + 1) := by
  induction l generalizing n with
  | nil => simp
  | cons a t ih =>
    rw [List.enumFrom_cons]
    rcases Nat.lt_trichotomy i n with h | h | h
    · rw [if_pos h]
      rw [List.filter_cons_of_pos (by simp; omega)]
      simp only [List.map_cons]
      rw [ih (n + 1), if_pos (by omega)]
    · subst h
      rw [if_neg (by omega)]
      rw [List.filter_cons_of_neg (by simp)]
      rw [ih (i + 1), if_pos (by omega)]
      simp
    · rw [if_neg (by omega)]
      rw [List.filter_cons_of_pos (by simp; omega)]
      simp only [List.map_cons]
      rw [ih (n + 1), if_neg (by omega)]
      obtain ⟨k, hk⟩ : ∃ k, i - n = k + 1 := ⟨i - n - 1, by omega⟩
      rw [hk, List.take_succ_cons, List.drop_succ_cons]
      have : i - (n + 1) = k := by omega
      rw [this, List.cons_append]

/-- `removeRow` is exactly removal of the indexed element: the prefix
before `index` followed by the suffix after it. -/
theorem removeRow_eq (rows : List InjectorTestRow) (index : Nat) :
    removeRow rows index = rows.take index ++ rows.drop (index + 1) := by
  have h := enumFrom_filter_ne_map rows 0 index
  rw [if_neg (by omega), Nat.sub_zero] at h
  simpa [removeRow, List.enum] using h

/-- Claim C1: for the store holding exactly the two valid included rows
(10 injections, 2 ms, 0.02 g) and (10 injections, 4 ms, 0.06 g), the engine
computes mass-per-pulse 2.0 mg and 6.0 mg, a fitted slope of 2 g/s and
intercept of -2, a deadtime of 1.0 ms, and a cc/min flow rate of
83.333 * 2 = 166.666, displayed as 166.7. -/
theorem c1_end_to_end :
    (dataForPlot rowsE2E).map (fun p => p.massPerPulse) = [.num 2, .num 6] ∧
    flowRate rowsE2E = .num 2 ∧
    (regressionResult rowsE2E).intercept = .num (-2) ∧
    deadtime rowsE2E = .num 1 ∧
    jmul (.num (83333/1000)) (flowRate rowsE2E) = .num (83333/500) ∧
    flowRateCcStr rowsE2E = "166.7" := by
  refine ⟨?_, ?_, ?_, ?_, ?_, ?_⟩ <;> decide

/-- One field's contribution to `rowIsValid`: truthy and not NaN is the
same as present, non-zero and not NaN (infinities included). -/
theorem field_ok_iff (o : Option JSVal) :
    (truthy (jv o) = true ∧ (!isNaNj (jv o)) = true) ↔ fieldPresent o := by
  cases o with
  | none => simp [jv, truthy, isNaNj, fieldPresent]
  | some v => cases v <;> simp [jv, truthy, isNaNj, fieldPresent]

/-- Claim C2 counterexample: a row whose `injections` field is positive
infinity — not finite — is accepted by the validator. -/
theorem c2_validator_accepts_infinity :
    rowInf.injections = some JSVal.posInf ∧ rowIsValid rowInf = true := by
  exact ⟨rfl, by decide⟩

/-- Claim C2 as amended: the validator returns false whenever any of the
three fields is absent, zero, or NaN, and true otherwise — in particular a
row with an infinite field passes; it is not rejected as non-finite. -/
theorem c2_rowIsValid_iff (row : InjectorTestRow) :
    rowIsValid row = true ↔
      fieldPresent row.injections ∧ fieldPresent row.pulseWidth ∧
        fieldPresent row.totalMass := by
  have h1 := field_ok_iff row.injections
  have h2 := field_ok_iff row.pulseWidth
  have h3 := field_ok_iff row.totalMass
  rw [rowIsValid]
  simp only [Bool.and_eq_true] at h1 h2 h3 ⊢
  tauto

/-- Witness for C2's amended theorem at a concrete fully-filled row. -/
theorem c2_witness : rowIsValid rowE2Ea = true :=
  (c2_rowIsValid_iff rowE2Ea).mpr
    ⟨⟨JSVal.num 10, rfl, by decide, by decide⟩,
     ⟨JSVal.num 2, rfl, by decide, by decide⟩,
     ⟨JSVal.num (1/50), rfl, by decide, by decide⟩⟩

/-- Every single user interaction keeps at least one row in the store. -/
theorem step_length_pos (s : AppState) (e : Event) (h : 1 ≤ s.rows.length) :
    1 ≤ (step s e).rows.length := by
  cases e with
  | update i f v =>
    rw [step, handleInputChange]
    cases s.rows.get? i <;> simp [h]
  | blurTotal i =>
    rw [step, blurTotalMass]
    cases s.rows.get? i with
    | none => exact h
    | some r =>
      dsimp only
      split
      · simp [addRow]
      · exact h
  | setInclude i b =>
    rw [step, handleInclude]
    cases s.rows.get? i <;> simp [h]
  | clickRemove i =>
    rw [step]
    split
    · exact h
    · rename_i hne
      simp only [removeRow_eq, List.length_append, List.length_take, List.length_drop]
      omega
  | clickAdd =>
    simp [step, addRow]

/-- Claim C3 counterexample: at the `removeRow` level there is no guard —
removing the sole remaining row empties the store instead of being a no-op. -/
theorem c3_removeRow_sole_row_deletes :
    rowsBlank.length = 1 ∧ removeRow rowsBlank 0 = [] := by
  exact ⟨rfl, by decide⟩

/-- Claim C3 as amended: `removeRow` itself deletes unconditionally, but
the page offers a remove control only for non-last rows, so every sequence
of user interactions keeps the row count at 1 or more. -/
theorem c3_row_count_invariant (es : List Event) (s : AppState)
    (h : 1 ≤ s.rows.length) : 1 ≤ (steps s es).rows.length := by
  induction es generalizing s with
  | nil => exact h
  | cons e es ih => exact ih (step s e) (step_length_pos s e h)

/-- Witness for C3's amended theorem: a remove interaction on the initial
one-row store leaves at least one row. -/
theorem c3_witness : 1 ≤ (steps initialState [Event.clickRemove 0]).rows.length :=
  c3_row_count_invariant [Event.clickRemove 0] initialState (by decide)

/-- Claim C10: removing a removable (non-last) row of a store with at least
two rows deletes exactly that row — the count drops by one, every row
before the index is untouched, and every row at or after it shifts down by
one with identical contents, preserving order. -/
theorem c10_remove_frame (rows : List InjectorTestRow) (index : Nat)
    (h2 : 2 ≤ rows.length) (hi : index + 1 < rows.length) :
    (removeRow rows index).length + 1 = rows.length ∧
    (∀ j, j < index → (removeRow rows index)[j]? = rows[j]?) ∧
    (∀ j, index ≤ j → (removeRow rows index)[j]? = rows[j + 1]?) := by
  rw [removeRow_eq]
  refine ⟨?_, ?_, ?_⟩
  · simp only [List.length_append, List.length_take, List.length_drop]
    omega
  · intro j hj
    rw [List.getElem?_append_left (by simp; omega)]
    exact List.getElem?_take_of_lt hj
  · intro j hj
    rcases Nat.lt_or_ge j (rows.length - 1) with hlt | hge
    · rw [List.getElem?_append_right (by simp; omega)]
      rw [List.getElem?_drop]
      congr 1
      simp only [List.length_take]
      omega
    · rw [List.getElem?_eq_none (by simp; omega), List.getElem?_eq_none (by omega)]

/-- Witness for C10 at the two-row end-to-end store, removing row 0. -/
theorem c10_witness :
    (removeRow rowsE2E 0).length + 1 = rowsE2E.length ∧
    (removeRow rowsE2E 0)[0]? = rowsE2E[1]? := by
  have h := c10_remove_frame rowsE2E 0 (by decide) (by decide)
  exact ⟨h.1, h.2.2 0 (Nat.le_refl 0)⟩

/-- Claim C4 counterexample: three `update` interactions that complete
every field of the single blank row do not append anything — the store
still has exactly one row, not the two the claim requires. -/
theorem c4_updates_alone_do_not_append :
    (steps initialState e2eUpdates0).rows =
      [⟨some (JSVal.num 10), some (JSVal.num 2), some (JSVal.num (1/50)), true, 0⟩] ∧
    rowIsValid ⟨some (JSVal.num 10), some (JSVal.num 2), some (JSVal.num (1/50)), true, 0⟩ = true := by
  exact ⟨by decide, by decide⟩

/-- Claim C4 as amended: the blank row is appended when the total-mass
input of the completed last row loses focus, not by `update` itself.
Completing row 0 and blurring its total-mass field yields exactly 2 rows
with row 1 blank; a second blur on row 0 appends nothing more (row 0 is no
longer last); completing row 1 the same way yields exactly 3 rows. -/
theorem c4_append_on_blur :
    (steps initialState (e2eUpdates0 ++ [Event.blurTotal 0])).rows.length = 2 ∧
    (steps initialState (e2eUpdates0 ++ [Event.blurTotal 0])).rows[1]? = some (makeRow 1) ∧
    step (steps initialState (e2eUpdates0 ++ [Event.blurTotal 0])) (Event.blurTotal 0) =
      steps initialState (e2eUpdates0 ++ [Event.blurTotal 0]) ∧
    (steps initialState (e2eUpdates0 ++ [Event.blurTotal 0] ++ e2eUpdates1)).rows.length = 3 := by
  refine ⟨?_, ?_, ?_, ?_⟩ <;> decide

/-- A finite value rendered by `toFixed` with at least one fraction digit
always contains a decimal point. -/
theorem dot_mem_toFixedStr (d : Nat) (hd : d ≠ 0) (q : ℚ) :
    '.' ∈ (toFixedStr d (JSVal.num q)).data := by
  rw [toFixedStr]
  simp only [if_neg hd]
  simp [String.data_append, List.mem_append]

/-- A finite value rendered by `toFixed` with at least one fraction digit
is never the text "NaN". -/
theorem toFixedStr_num_ne_NaN (d : Nat) (hd : d ≠ 0) (q : ℚ) :
    toFixedStr d (JSVal.num q) ≠ "NaN" := by
  intro h
  have hdot := dot_mem_toFixedStr d hd q
  rw [h] at hdot
  revert hdot
  decide

/-- A finite value rendered by `toFixed` with at least one fraction digit
is never the empty string. -/
theorem toFixedStr_num_ne_empty (d : Nat) (hd : d ≠ 0) (q : ℚ) :
    toFixedStr d (JSVal.num q) ≠ "" := by
  intro h
  have hdot := dot_mem_toFixedStr d hd q
  rw [h] at hdot
  revert hdot
  decide

/-- Claim C8 counterexample: on the initial blank store, the deadtime is
NaN and the deadtime summary line renders it with `toFixed(2)` as the
literal text "NaN" — it is surfaced to the consumer, not blanked. -/
theorem c8_summary_shows_nan_text :
    deadtime rowsBlank = JSVal.nan ∧ deadtimeStr rowsBlank = "NaN" := by
  exact ⟨by decide, by decide⟩

/-- Claim C8 as amended: the per-row table metrics, which go through
`formatRowValue`, render NaN as an empty value — never the text "NaN" —
and any finite value with one decimal place; but the flow-rate/deadtime
summary and the small-pulse table apply `toFixed` directly with no NaN
guard (and with 2 and 3 decimals), so a NaN there surfaces as "NaN". -/
theorem c8_formatting (v : JSVal) :
    (formatRowValue v = "" ↔ v = JSVal.nan) ∧
    formatRowValue v ≠ "NaN" ∧
    (v ≠ JSVal.nan → formatRowValue v = toFixedStr 1 v) := by
  cases v with
  | nan => exact ⟨by decide, by decide, by decide⟩
  | posInf => exact ⟨by decide, by decide, by decide⟩
  | negInf => exact ⟨by decide, by decide, by decide⟩
  | num q =>
    refine ⟨?_, ?_, fun _ => rfl⟩
    · rw [formatRowValue]
      simp only [isNaNj, Bool.false_eq_true, if_false]
      simp [toFixedStr_num_ne_empty 1 one_ne_zero q]
    · rw [formatRowValue]
      simp only [isNaNj, Bool.false_eq_true, if_false]
      exact toFixedStr_num_ne_NaN 1 one_ne_zero q

/-- Witness for C8's amended theorem at a concrete finite value. -/
theorem c8_witness :
    formatRowValue (JSVal.num (1/2)) = toFixedStr 1 (JSVal.num (1/2)) :=
  (c8_formatting (JSVal.num (1/2))).2.2 (by decide)

/-- Claim C7 counterexample: the first end-to-end row lies exactly on the
fitted line (its actual mass-per-pulse equals slope * pulseWidth +
intercept), and its percent error is 0, but its modeled pulse width is
1 ms while its pulse width is 2 ms — they differ by the 1 ms deadtime, far
beyond floating-point tolerance. -/
theorem c7_modelPulse_differs_from_pulseWidth :
    jmul (JSVal.num 1000) (jdiv (cleanRow rowE2Ea).totalMass (cleanRow rowE2Ea).injections) =
      jadd (jmul (flowRate rowsE2E) (cleanRow rowE2Ea).pulseWidth)
        (regressionResult rowsE2E).intercept ∧
    (mkPlotPoint rowsE2E (cleanRow rowE2Ea)).err = JSVal.num 0 ∧
    (mkPlotPoint rowsE2E (cleanRow rowE2Ea)).modelPulse = JSVal.num 1 ∧
    (mkPlotPoint rowsE2E (cleanRow rowE2Ea)).pulseWidth = JSVal.num 2 := by
  refine ⟨?_, ?_, ?_, ?_⟩ <;> decide

/-- Claim C7 as amended: for a valid row lying exactly on the fitted line
(with finite data, nonzero slope, nonzero actual mass, and an actual mass
exactly representable at the library's 2-decimal rounding), the percent
error is exactly 0 and the modeled pulse width equals the row's pulse
width minus the deadtime — not the pulse width itself. -/
theorem c7_on_line_round_trip (rows : List InjectorTestRow) (r : CleanedRow)
    (x t i s c a : ℚ)
    (_hmem : r ∈ validRows rows)
    (hx : r.pulseWidth = JSVal.num x) (ht : r.totalMass = JSVal.num t)
    (hi : r.injections = JSVal.num i) (hi0 : i ≠ 0)
    (hs : flowRate rows = JSVal.num s)
    (hc : (regressionResult rows).intercept = JSVal.num c) (hs0 : s ≠ 0)
    (ha : a = 1000 * (t / i)) (hline : a = s * x + c) (ha0 : a ≠ 0)
    (hround : ((ratFloor (a * 100 + 1/2) : ℤ) : ℚ) = a * 100) :
    (mkPlotPoint rows r).err = JSVal.num 0 ∧
    (mkPlotPoint rows r).modelPulse = jsub (JSVal.num x) (deadtime rows) := by
  have hg : (regressionResult rows).gradient = JSVal.num s := hs
  have hdead : deadtime rows = JSVal.num (-c / s) := by
    rw [deadtime, hc, hs]
    simp [jneg, jdiv, hs0]
  have hmass : jdiv r.totalMass r.injections = JSVal.num (t / i) := by
    rw [ht, hi]
    simp [jdiv, hi0]
  have hactual : jmul (JSVal.num 1000) (jdiv r.totalMass r.injections) = JSVal.num a := by
    rw [hmass]
    simp [jmul, ha]
  have hmodel : predict (regressionResult rows) r.pulseWidth = JSVal.num a := by
    rw [predict, hg, hc, hx]
    simp only [jmul, jadd, round2]
    rw [← hline, hround]
    congr 1
    field_simp
  constructor
  · simp only [mkPlotPoint]
    rw [hmodel, hactual]
    have hz : a + -a = 0 := by ring
    simp [jsub, jneg, jadd, jdiv, jmul, hz, ha0]
  · simp only [mkPlotPoint]
    rw [hmass, hs, hdead]
    simp only [jsub, jneg, jadd, jdiv, jmul, if_neg hs0]
    congr 1
    have h1 : 1000 * (t / i) / s = a / s := by rw [← ha]
    rw [hline] at h1
    field_simp at h1 ⊢
    linarith [h1]

/-- Witness for C7's amended theorem at the first end-to-end row. -/
theorem c7_witness :
    (mkPlotPoint rowsE2E (cleanRow rowE2Ea)).err = JSVal.num 0 ∧
    (mkPlotPoint rowsE2E (cleanRow rowE2Ea)).modelPulse =
      jsub (JSVal.num 2) (deadtime rowsE2E) :=
  c7_on_line_round_trip rowsE2E (cleanRow rowE2Ea) 2 (1/50) 10 2 (-2) 2
    (by decide) (by decide) (by decide) (by decide) (by norm_num)
    (by decide) (by decide) (by norm_num) (by norm_num) (by norm_num)
    (by norm_num) (by decide)

/-- Claim C5 counterexample: with exactly one valid included row the fit
is degenerate, yet the slope is 0 and the intercept is the row's finite
mass-per-pulse (no NaN anywhere in the equation), the deadtime is negative
infinity rather than NaN, and the row's percent error is 0, not NaN. -/
theorem c5_one_row_metrics_not_nan :
    (validRows rowsOne).length = 1 ∧
    flowRate rowsOne = JSVal.num 0 ∧
    (regressionResult rowsOne).intercept = JSVal.num 2 ∧
    deadtime rowsOne = JSVal.negInf ∧
    (dataForPlot rowsOne).map (fun p => p.err) = [JSVal.num 0] := by
  refine ⟨?_, ?_, ?_, ?_, ?_⟩ <;> decide

/-- Claim C5 as amended: the degenerate fit never throws and is
deterministic, but it is not NaN-bearing throughout.  With zero included
valid rows the slope is 0, the intercept is NaN, and the deadtime and
every valid row's percent error are NaN.  With exactly one included finite
point (x, y) the slope is 0 and the intercept is round2(y), the library's
2-decimal rounding of the point's own mass-per-pulse; the deadtime is NaN
exactly when round2(y) is 0, and otherwise the signed infinity opposite in
sign to round2(y) — not NaN; and when y is nonzero and exactly
representable at 2 decimals, any valid row with a finite pulse width whose
actual mass-per-pulse equals y has percent error exactly 0, not NaN. -/
theorem c5_degenerate_fit :
    (∀ rows : List InjectorTestRow, regressionInput rows = [] →
      flowRate rows = JSVal.num 0 ∧ (regressionResult rows).intercept = JSVal.nan ∧
      deadtime rows = JSVal.nan ∧ ∀ p ∈ dataForPlot rows, p.err = JSVal.nan) ∧
    (∀ (rows : List InjectorTestRow) (x y : ℚ),
      regressionInput rows = [(JSVal.num x, JSVal.num y)] →
      flowRate rows = JSVal.num 0 ∧
      (regressionResult rows).intercept = round2 (JSVal.num y) ∧
      (round2 (JSVal.num y) = JSVal.num 0 → deadtime rows = JSVal.nan) ∧
      (∀ r : ℚ, round2 (JSVal.num y) = JSVal.num r → r ≠ 0 →
        deadtime rows = (if r < 0 then JSVal.posInf else JSVal.negInf)) ∧
      (((ratFloor (y * 100 + 1/2) : ℤ) : ℚ) = y * 100 → y ≠ 0 →
        ∀ r ∈ validRows rows, (∃ w : ℚ, r.pulseWidth = JSVal.num w) →
          jmul (JSVal.num 1000) (jdiv r.totalMass r.injections) = JSVal.num y →
          (mkPlotPoint rows r).err = JSVal.num 0)) := by
  constructor
  · intro rows h
    have hfit : regressionResult rows = ⟨JSVal.num 0, JSVal.nan⟩ := by
      rw [regressionResult, h]
      decide
    refine ⟨?_, ?_, ?_, ?_⟩
    · show (regressionResult rows).gradient = JSVal.num 0
      rw [hfit]
    · rw [hfit]
    · rw [deadtime, flowRate, hfit]
      decide
    · intro p hp
      rw [dataForPlot] at hp
      obtain ⟨r, hr, rfl⟩ := List.mem_map.mp hp
      simp [mkPlotPoint, predict, hfit]
  · intro rows x y hreg
    have hfit : regressionResult rows = ⟨JSVal.num 0, round2 (JSVal.num y)⟩ := by
      rw [regressionResult, hreg, linear]
      simp [sumJ, jadd, jmul, jsub, jneg, jdiv, round2]
    refine ⟨?_, ?_, ?_, ?_, ?_⟩
    · show (regressionResult rows).gradient = JSVal.num 0
      rw [hfit]
    · rw [hfit]
    · intro h0
      rw [deadtime, flowRate, hfit, h0]
      decide
    · intro r hr hr0
      rw [deadtime, flowRate, hfit, hr]
      simp only [jneg, jdiv]
      rcases lt_trichotomy r 0 with hlt | heq | hgt
      · rw [if_pos trivial, if_neg (by rw [neg_eq_zero]; exact ne_of_lt hlt),
          if_pos (neg_pos.mpr hlt), if_pos hlt]
      · exact absurd heq hr0
      · rw [if_pos trivial, if_neg (by rw [neg_eq_zero]; exact ne_of_gt hgt),
          if_neg (by rw [neg_pos]; exact lt_asymm hgt), if_neg (by exact lt_asymm hgt)]
    · intro hy hy0 r hr hw hact
      obtain ⟨w, hw⟩ := hw
      have h100 : ((ratFloor (y * 100 + 1/2) : ℤ) : ℚ) / 100 = y := by
        rw [hy]
        field_simp
      have h100i : ((ratFloor (y * 100 + (2:ℚ)⁻¹) : ℤ) : ℚ) / 100 = y := by
        have h2 : ((2:ℚ))⁻¹ = 1/2 := by norm_num
        rw [h2]
        exact h100
      have hry : round2 (JSVal.num y) = JSVal.num y := by
        rw [round2]
        exact congrArg JSVal.num h100
      rw [hry] at hfit
      have hpred : predict (regressionResult rows) r.pulseWidth = JSVal.num y := by
        rw [predict, hfit, hw]
        simp [jmul, jadd, round2, h100, h100i]
      simp only [mkPlotPoint]
      rw [hpred, hact]
      have hz : y + -y = 0 := by ring
      simp [jsub, jneg, jadd, jdiv, jmul, hz, hy0]

/-- Witness for C5's amended theorem: the zero-point case at the blank
store and the one-point case at the single-row store, whose point is
(2, 2) — nonzero and exactly representable at 2 decimals. -/
theorem c5_witness :
    (flowRate rowsBlank = JSVal.num 0 ∧
      (regressionResult rowsBlank).intercept = JSVal.nan ∧
      deadtime rowsBlank = JSVal.nan) ∧
    (flowRate rowsOne = JSVal.num 0 ∧
      (regressionResult rowsOne).intercept = round2 (JSVal.num 2) ∧
      deadtime rowsOne = (if (2:ℚ) < 0 then JSVal.posInf else JSVal.negInf) ∧
      (mkPlotPoint rowsOne (cleanRow rowE2Ea)).err = JSVal.num 0) := by
  constructor
  · have h := c5_degenerate_fit.1 rowsBlank (by decide)
    exact ⟨h.1, h.2.1, h.2.2.1⟩
  · have h := c5_degenerate_fit.2 rowsOne 2 2 (by decide)
    refine ⟨h.1, h.2.1, ?_, ?_⟩
    · exact h.2.2.2.1 2 (by decide) (by norm_num)
    · exact h.2.2.2.2 (by decide) (by norm_num) (cleanRow rowE2Ea) (by decide)
        ⟨2, by decide⟩ (by decide)

/-- The regression input computed by the code equals the pairs described by
the spec: the (pulseWidth, 1000 * totalMass / injections) pairs of exactly
the valid rows whose inclusion flag is set, in order. -/
theorem regressionInput_eq_spec (rows : List InjectorTestRow) :
    regressionInput rows = specRegressionPairs rows := by
  rw [regressionInput, specRegressionPairs, validRows, List.filter_map, List.map_map,
    List.filter_filter]
  congr 1
  apply List.filter_congr
  intro a _
  simp [Function.comp, cleanRow, Bool.and_comm]

/-- Claim C9: the regression is fed exactly the (pulseWidth, massPerPulse)
pairs of the valid rows whose `includeInRegression` flag is true, and every
valid row — included or not — still gets its per-row metrics computed in
`dataForPlot`. -/
theorem c9_regression_input (rows : List InjectorTestRow) :
    regressionInput rows = specRegressionPairs rows ∧
    ∀ r ∈ rows, rowIsValid r = true →
      mkPlotPoint rows (cleanRow r) ∈ dataForPlot rows := by
  refine ⟨regressionInput_eq_spec rows, fun r hr hv => ?_⟩
  rw [dataForPlot, validRows]
  exact List.mem_map_of_mem _ (List.mem_map_of_mem _ (List.mem_filter.mpr ⟨hr, hv⟩))

/-- Witness for C9 at a store containing an excluded valid row: the
regression input matches the spec description and the excluded row still
appears in the plot data. -/
theorem c9_witness :
    regressionInput rowsMixed = specRegressionPairs rowsMixed ∧
    mkPlotPoint rowsMixed (cleanRow rowExcl) ∈ dataForPlot rowsMixed :=
  ⟨(c9_regression_input rowsMixed).1,
   (c9_regression_input rowsMixed).2 rowExcl (by decide) (by decide)⟩

end InjectorCalc
